import Mathlib

/-!
Shallow embedding of the `jsonrpc` repository (files `client.go` and
`codec.go`) and proofs about it.

The embedding models:
  * the wire messages `Request` / `Response` and their validation,
  * the client-side call tracker (`Client`): `parseCall`, `do`, `send`,
    the receive loop's per-response step and its shutdown fan-out, `Close`,
  * the server-side registry and dispatch (`Register`, `getService`,
    `service.getMethod`, `Server.getMethod`, `Connection.do`,
    `replyError`, `replyResult`),
  * a lock/event trace extracted from the client's straight-line code,
    used to reason about which locks are held at each shared-map access.

Go maps are modelled as association lists (`mlookup`/`minsert`/`merase`),
Go channels as a capacity plus a queue, `json.RawMessage` as
`Option String` (with `none` for a nil slice), and outcomes of external
calls (`json.Marshal`, `json.Unmarshal`, encoder/decoder errors, and the
reflective method invocation) as explicit parameters, since those depend
on data outside this repository.
-/

set_option autoImplicit false

namespace JsonRpc

/-! ### Go maps as association lists -/

/-- Lookup in a Go map modelled as an association list: `m[k]`. -/
def mlookup {κ α : Type} [DecidableEq κ] (k : κ) : List (κ × α) → Option α
  | [] => none
  | (k', v) :: rest => if k' = k then some v else mlookup k rest

/-- `delete(m, k)` on a Go map modelled as an association list. -/
def merase {κ α : Type} [DecidableEq κ] (k : κ) : List (κ × α) → List (κ × α)
  | [] => []
  | (k', v) :: rest => if k' = k then merase k rest else (k', v) :: merase k rest

/-- Assignment `m[k] = v` on a Go map modelled as an association list. -/
def minsert {κ α : Type} [DecidableEq κ] (k : κ) (v : α) (l : List (κ × α)) :
    List (κ × α) :=
  merase k l ++ [(k, v)]

theorem mlookup_merase_self {κ α : Type} [DecidableEq κ] (k : κ) (l : List (κ × α)) :
    mlookup k (merase k l) = none := by
  induction l with
  | nil => rfl
  | cons p rest ih =>
    obtain ⟨k', v⟩ := p
    by_cases h : k' = k
    · simp [merase, h, ih]
    · simp [merase, mlookup, h, ih]

theorem mlookup_append_none {κ α : Type} [DecidableEq κ] (k : κ)
    (l₁ l₂ : List (κ × α)) (h : mlookup k l₁ = none) :
    mlookup k (l₁ ++ l₂) = mlookup k l₂ := by
  induction l₁ with
  | nil => rfl
  | cons p rest ih =>
    obtain ⟨k', v⟩ := p
    by_cases hk : k' = k
    · simp [mlookup, hk] at h
    · simp [mlookup, hk] at h ⊢
      exact ih h

theorem mlookup_minsert_self {κ α : Type} [DecidableEq κ] (k : κ) (v : α)
    (l : List (κ × α)) : mlookup k (minsert k v l) = some v := by
  unfold minsert
  rw [mlookup_append_none k _ _ (mlookup_merase_self k l)]
  simp [mlookup]

theorem mlookup_map_value {κ α : Type} [DecidableEq κ] (k : κ) (f : α → α)
    (l : List (κ × α)) :
    mlookup k (l.map (fun p => (p.1, f p.2))) = (mlookup k l).map f := by
  induction l with
  | nil => rfl
  | cons p rest ih =>
    obtain ⟨k', v⟩ := p
    by_cases h : k' = k
    · simp [mlookup, h]
    · simp [mlookup, h, ih]

/-! ### `strings.Split(s, ".")` -/

/-- Splitting a character list at every occurrence of `sep`, with the
semantics of Go's `strings.Split` for a one-character separator:
the empty input yields one empty part, and each separator occurrence
starts a new (possibly empty) part. -/
def splitChars (sep : Char) : List Char → List (List Char)
  | [] => [[]]
  | c :: cs =>
    if c = sep then [] :: splitChars sep cs
    else
      match splitChars sep cs with
      | [] => [[c]]
      | p :: ps => (c :: p) :: ps

/-- Go's `strings.Split(s, ".")`, as used by `parseCall` (client.go:80),
`Request.Regular` (codec.go:57), `Connection.do` (codec.go:105) and
`Server.getMethod` (codec.go:265). -/
def goSplitDot (s : String) : List String :=
  (splitChars '.' s.toList).map String.mk

example : goSplitDot "A.B" = ["A", "B"] := by decide
example : goSplitDot "" = [""] := by decide
example : goSplitDot "a..b" = ["a", "", "b"] := by decide
example : goSplitDot "nodot" = ["nodot"] := by decide
example : goSplitDot ".B" = ["", "B"] := by decide

/-! ### Wire messages (codec.go:50-77) -/

/-- `Request` (codec.go:50-54). `Id` is a `uint32` (modelled as a `Nat`
below `2^32`), `Param` is a `json.RawMessage` modelled as `Option String`
(`none` for a nil slice). -/
structure Request where
  id : Nat
  method : String
  param : Option String
deriving DecidableEq

/-- `Response` (codec.go:73-77). `Result` is a `json.RawMessage` modelled
as `Option String` (`none` for a nil slice); `Error` is a plain string,
empty meaning success. -/
structure Response where
  id : Nat
  result : Option String
  error : String
deriving DecidableEq

/-- `Request.Regular` (codec.go:56-71): the server-side method-name check.
Returns `some errText` when the request is rejected, `none` when accepted. -/
def Request.Regular (req : Request) : Option String :=
  let parts := goSplitDot req.method
  if parts.length ≠ 2 then
    some ("invalid method: " ++ req.method)
  else if parts.getD 0 "" = "" then
    some ("invalid service name: " ++ parts.getD 0 "")
  else if parts.getD 1 "" = "" then
    some ("invalid serviceMethod name: " ++ parts.getD 1 "")
  else
    none

/-! ### Client-side call tracker (client.go) -/

/-- `ErrTimeout` (client.go:19). -/
def ErrTimeout : String := "rpc call timeout"

/-- `ErrClientClosed` (client.go:22). -/
def ErrClientClosed : String := "client has closed"

/-- A buffered Go channel of `Response` values: a capacity fixed at
`make`, plus the queue of values sent and not yet received. -/
structure Chan where
  cap : Nat
  buf : List Response
deriving DecidableEq

/-- `ch <- r`: the value ends up appended to the channel's queue. -/
def Chan.send (ch : Chan) (r : Response) : Chan :=
  { ch with buf := ch.buf ++ [r] }

/-- Whether a send on the channel would block right now: true exactly when
the buffer is already at capacity. -/
def Chan.sendWouldBlock (ch : Chan) : Bool :=
  ch.cap ≤ ch.buf.length

/-- Equality on `Except` outcomes is decidable. -/
instance decEqExcept {ε α : Type} [DecidableEq ε] [DecidableEq α] :
    DecidableEq (Except ε α) := fun a b =>
  match a, b with
  | .ok x, .ok y =>
      if h : x = y then .isTrue (by rw [h]) else .isFalse (by simp [h])
  | .ok _, .error _ => .isFalse (by simp)
  | .error _, .ok _ => .isFalse (by simp)
  | .error x, .error y =>
      if h : x = y then .isTrue (by rw [h]) else .isFalse (by simp [h])

/-- `Call` (client.go:37-43). The caller's input value `req` is an opaque
`interface{}` whose only use in the source is `json.Marshal(call.req)`
(client.go:180), so the model carries the outcome of that serialization:
`.ok bytes` or `.error text`. The unused `ctx` field is dropped. -/
structure Call where
  id : Nat
  method : String
  reqMarshal : Except String String
  done : Chan
deriving DecidableEq

/-- The mutable fields of `Client` (client.go:25-35): the outstanding-calls
map, the two one-way flags, and the id counter. The socket, codec and the
two mutexes are modelled separately (I/O outcomes as parameters, lock usage
as the event traces further below). -/
structure ClientState where
  calls : List (Nat × Call)
  closing : Bool
  shutdown : Bool
  seqId : Nat
deriving DecidableEq

/-- The synthetic `&Response{Error: e}` built by the client on internal
failure paths (client.go:71, 159, 171): zero id, nil result. -/
def syntheticResp (e : String) : Response :=
  { id := 0, result := none, error := e }

/-- `Client.parseCall` (client.go:79-94): validate the method name, then
allocate a fresh id with `atomic.AddUint32` (wraps at `2^32`) and build a
`Call` whose completion channel is `make(chan *Response, 1)`. -/
def parseCall (st : ClientState) (method : String)
    (inMarshal : Except String String) : ClientState × Except String Call :=
  let parts := goSplitDot method
  if parts.length ≠ 2 ∨ parts.getD 0 "" = "" ∨ parts.getD 1 "" = "" then
    (st, .error ("invalid method '" ++ method ++ "'"))
  else
    let newId := (st.seqId + 1) % 4294967296
    ({ st with seqId := newId },
     .ok { id := newId, method := method, reqMarshal := inMarshal,
           done := { cap := 1, buf := [] } })

/-- `Client.send` (client.go:178-190): under the send lock, marshal the
input — discarding any marshal error (`body, _ := json.Marshal(call.req)`;
a failed `json.Marshal` returns a nil byte slice) — build the `Request`,
and encode it. `encErr` is the outcome of `c.codec.encoder.Encode(req)`;
it is the only error `send` returns. -/
def send (call : Call) (encErr : Option String) : Request × Option String :=
  let body : Option String :=
    match call.reqMarshal with
    | .ok b => some b
    | .error _ => none
  ({ id := call.id, method := call.method, param := body }, encErr)

/-- `Client.do` (client.go:154-176): under the map lock, fail the call with
`ErrClientClosed` if `closing` or `shutdown` is set; otherwise register it;
then `send`; on send failure deregister and fail the call with the send
error. Returns the new state and the call as the waiting caller sees it
(its channel may have received a synthetic response). -/
def clientDo (st : ClientState) (call : Call) (encErr : Option String) :
    ClientState × Call :=
  if st.closing || st.shutdown then
    (st, { call with done := call.done.send (syntheticResp ErrClientClosed) })
  else
    let st1 := { st with calls := minsert call.id call st.calls }
    match (send call encErr).2 with
    | some e =>
        ({ st1 with calls := merase call.id st1.calls },
         { call with done := call.done.send (syntheticResp e) })
    | none => (st1, call)

/-- One successful-decode iteration of `Client.recv` (client.go:55-64):
look the response's id up in the outstanding-calls map (note: the source
does this lookup without holding the map lock — see the event traces);
if absent, discard; if present, deliver on the call's channel, then delete
the id under the map lock. Returns the new state and, when a call was
found, its channel after the delivery (the waiting caller's view). -/
def recvStep (st : ClientState) (resp : Response) : ClientState × Option Chan :=
  match mlookup resp.id st.calls with
  | none => (st, none)
  | some call =>
      ({ st with calls := merase resp.id st.calls }, some (call.done.send resp))

/-- The shutdown fan-out of `Client.recv` (client.go:67-74): after the
decoder fails with `decodeErr`, holding the send lock and then the map
lock, set `shutdown` and deliver `&Response{Error: decodeErr}` to every
call still in the map. The source contains no `delete` here: the map keeps
all its entries (each shown with its channel after the delivery, which is
what the entry's waiting caller also sees). -/
def recvFanout (st : ClientState) (decodeErr : String) : ClientState :=
  { st with
    shutdown := true,
    calls := st.calls.map
      (fun p => (p.1, { p.2 with done := p.2.done.send (syntheticResp decodeErr) })) }

/-- `Client.Close` (client.go:192-203): under the map lock, return doing
nothing if `shutdown` or `closing` is set; otherwise call `conn.Close()`.
The returned `Bool` records whether `conn.Close()` was invoked. Note the
source never assigns `c.closing`. -/
def Close (st : ClientState) : ClientState × Bool :=
  if st.shutdown || st.closing then (st, false)
  else (st, true)

/-- The tail of `Client.Call` / `Client.CallWithTimeout` once a `Response`
has been received (client.go:106-120, 136-148): a non-empty `resp.Error`
becomes the call's error and nothing else runs; with no output destination
(`out == nil`, `hasOut = false`) nothing else runs either; otherwise
`json.Unmarshal(resp.Result, out)` is attempted, `unmarshalErr` being its
outcome. `unmarshalAttempted` records whether that unmarshal ran at all. -/
structure FinishResult where
  err : Option String
  unmarshalAttempted : Bool
deriving DecidableEq

/-- See `FinishResult`. -/
def callFinish (resp : Response) (hasOut : Bool) (unmarshalErr : Option String) :
    FinishResult :=
  if resp.error ≠ "" then { err := some resp.error, unmarshalAttempted := false }
  else if !hasOut then { err := none, unmarshalAttempted := false }
  else
    match unmarshalErr with
    | some e => { err := some e, unmarshalAttempted := true }
    | none => { err := none, unmarshalAttempted := true }

/-- The `select` of `Client.CallWithTimeout` (client.go:131-149): if the
timer fires first the result is `ErrTimeout` (and the source runs nothing
else on that branch — in particular it never touches the call map);
otherwise the received response is handled exactly as in `Call`. -/
inductive SelectOutcome
  | timedOut
  | completed (resp : Response)
deriving DecidableEq

/-- See `SelectOutcome`. -/
def callWithTimeoutFinish (o : SelectOutcome) (hasOut : Bool)
    (unmarshalErr : Option String) : Option String :=
  match o with
  | .timedOut => some ErrTimeout
  | .completed resp => (callFinish resp hasOut unmarshalErr).err

/-! ### Server-side registry and dispatch (codec.go) -/

/-- `NoExportedMethod` (codec.go:47). -/
def NoExportedMethod : String := "no exported method"

/-- A `reflect.Type` descriptor, as far as the source inspects one: its
pointer structure (for `Kind() == reflect.Ptr` and `Elem()`), its `Name()`
and its `PkgPath()`. -/
inductive GoType
  | ptr (elem : GoType)
  | base (name : String) (pkgPath : String)
deriving DecidableEq

/-- `t.Kind() == reflect.Ptr` (codec.go:218). -/
def GoType.isPtr : GoType → Bool
  | .ptr _ => true
  | .base _ _ => false

/-- `typeOfError` (codec.go:46): the descriptor of the built-in `error`
interface type, compared against `methodType.Out(0)` by identity. -/
def typeOfError : GoType := .base "error" ""

/-- `isExported` (codec.go:168-171): whether the first rune of the name is
upper case (`unicode.IsUpper` of the first decoded rune; an empty string
decodes to the replacement rune, which is not upper case). The model
decides upper case for the ASCII range. -/
def isExported (name : String) : Bool :=
  match name.toList with
  | [] => false
  | c :: _ => c.isUpper

/-- `isExportedOrBuiltinType` (codec.go:174-181): strip pointers, then
accept when the base name is exported or the package path is empty. -/
def isExportedOrBuiltinType : GoType → Bool
  | .ptr t => isExportedOrBuiltinType t
  | .base name pkgPath => isExported name || pkgPath == ""

/-- One entry of `recvType.Method(i)` (codec.go:199-201), as far as the
registration loop inspects it: `Name`, `PkgPath` (empty exactly for
exported methods), the input types `In(0..NumIn-1)` (index 0 being the
receiver) and the output types `Out(0..NumOut-1)`. -/
structure Method where
  name : String
  pkgPath : String
  inTypes : List GoType
  outTypes : List GoType
deriving DecidableEq

/-- `serviceMethod` (codec.go:155-159). The `reflect.Method` handle is
carried as the method name; `inType` and `outType` are as stored by
`Register` (codec.go:234-238). -/
structure serviceMethod where
  methodName : String
  inType : GoType
  outType : GoType
deriving DecidableEq

/-- `service` (codec.go:139-143). The `receiverType`/`receiverValue`
reflection handles are carried as the receiver's type name. -/
structure service where
  receiverTypeName : String
  methodMap : List (String × serviceMethod)
deriving DecidableEq

/-- `service.getMethod` (codec.go:145-153): error exactly when the method
name is absent from the service's method map. -/
def service.getMethod (svc : service) (methodName : String) :
    Except String serviceMethod :=
  match mlookup methodName svc.methodMap with
  | none => .error ("methodName '" ++ methodName ++ "' not exists")
  | some m => .ok m

/-- The mutable field of `Server` (codec.go:161-165): the service map.
A nil Go map reads like an empty one, so `[]` covers both. -/
structure ServerState where
  serviceMap : List (String × service)
deriving DecidableEq

/-- The filter chain of `Register`'s method loop (codec.go:198-232), in
source order: exported (`PkgPath == ""`), `NumIn() == 3`, `In(1)`
exported-or-builtin, `In(2)` a pointer, `In(2)` exported-or-builtin,
`NumOut() == 1`, `Out(0) == typeOfError`. -/
def methodQualifies (m : Method) : Bool :=
  if m.pkgPath ≠ "" then false
  else if m.inTypes.length ≠ 3 then false
  else if !isExportedOrBuiltinType (m.inTypes.getD 1 (.base "" "")) then false
  else if !(m.inTypes.getD 2 (.base "" "")).isPtr then false
  else if !isExportedOrBuiltinType (m.inTypes.getD 2 (.base "" "")) then false
  else if m.outTypes.length ≠ 1 then false
  else if m.outTypes.getD 0 (.base "" "") ≠ typeOfError then false
  else true

/-- The method map built by `Register`'s loop (codec.go:198-239): each
qualifying method is stored under its name with its `In(1)`/`In(2)`
types. -/
def buildMethodMap (methods : List Method) : List (String × serviceMethod) :=
  methods.foldl
    (fun mp m =>
      if methodQualifies m then
        minsert m.name
          { methodName := m.name,
            inType := m.inTypes.getD 1 (.base "" ""),
            outType := m.inTypes.getD 2 (.base "" "") } mp
      else mp)
    []

/-- What `Register` inspects about its `receiver interface{}` argument:
`reflect.Indirect(recvValue).Type().Name()` and the enumerated methods of
`reflect.TypeOf(receiver)`. -/
structure Candidate where
  typeName : String
  methods : List Method
deriving DecidableEq

/-- `Server.Register` (codec.go:183-252): fail on an empty type name;
build the method map; with zero qualifying methods fail with
`NoExportedMethod` before touching the service map; otherwise install the
service under the type name (overwriting any previous registration). -/
def Register (s : ServerState) (cand : Candidate) : ServerState × Option String :=
  if cand.typeName = "" then (s, some "invalid service name")
  else
    let newService : service :=
      { receiverTypeName := cand.typeName, methodMap := buildMethodMap cand.methods }
    if newService.methodMap.length ≤ 0 then (s, some NoExportedMethod)
    else
      ({ serviceMap := minsert cand.typeName newService s.serviceMap }, none)

/-- `Server.getService` (codec.go:254-262): error exactly when the service
name is absent from the service map. -/
def getService (s : ServerState) (serviceName : String) : Except String service :=
  match mlookup serviceName s.serviceMap with
  | none => .error ("serviceName '" ++ serviceName ++ "' not exists")
  | some svc => .ok svc

/-- `Server.getMethod` (codec.go:264-287), translated literally: split the
full name; on a non-two-part name, error; on an unknown service, error;
then — with `_service` already assigned — error when the method name IS
present in the service's method map, and return `(some service, nil
serviceMethod, nil error)` when it is absent (`_serviceMethod` is never
assigned). The error message interpolates `serviceName` first and
`serviceMethodName` second, as the source does. -/
def ServerGetMethod (s : ServerState) (method : String) :
    Option service × Option serviceMethod × Option String :=
  let parts := goSplitDot method
  if parts.length ≠ 2 then
    (none, none, some ("invalid method(" ++ method ++ ")"))
  else
    let serviceName := parts.getD 0 ""
    let serviceMethodName := parts.getD 1 ""
    match mlookup serviceName s.serviceMap with
    | none => (none, none, some ("service '" ++ serviceName ++ "' not found"))
    | some svc =>
        match mlookup serviceMethodName svc.methodMap with
        | some _ =>
            (some svc, none,
             some ("serviceMethod '" ++ serviceName ++ "' not found in service '"
               ++ serviceMethodName ++ "'"))
        | none => (some svc, none, none)

/-- `Connection.replyError` (codec.go:289-297): a `Response` with the
request's id, a nil result and the error's text. -/
def replyError (id : Nat) (e : String) : Response :=
  { id := id, result := none, error := e }

/-- `Connection.replyResult` (codec.go:299-309): a `Response` with the
request's id, the marshalled result bytes (`resultBytes, _ :=
json.Marshal(result)`, so `none` when that marshal failed) and an empty
error. -/
def replyResult (id : Nat) (marshaled : Option String) : Response :=
  { id := id, result := marshaled, error := "" }

/-- Outcomes of the external calls made inside `Connection.do`:
`json.Unmarshal(req.Param, inParam.Interface())` (codec.go:122), the
reflective invocation's returned error value (codec.go:126-128), and
`json.Marshal(outParam.Interface())` inside `replyResult`. -/
structure DoEnv where
  unmarshalParamErr : Option String
  invokeErr : Option String
  marshalOut : Option String
deriving DecidableEq

/-- `Connection.do` (codec.go:99-137): validate with `Regular`; resolve
the service by the first part and the method by the second, replying with
the lookup error on failure; then unmarshal the payload — the source
assigns the error (`err = json.Unmarshal(...)`) and never reads it, so the
model binds it and drops it — invoke, and reply with the invocation's
error or with the marshalled output. The response returned is the one the
session writes back; every path through `do` writes exactly one response
and none terminates the session. -/
def connDo (s : ServerState) (env : DoEnv) (req : Request) : Response :=
  match req.Regular with
  | some e => replyError req.id e
  | none =>
    let parts := goSplitDot req.method
    match getService s (parts.getD 0 "") with
    | .error e => replyError req.id e
    | .ok svc =>
      match svc.getMethod (parts.getD 1 "") with
      | .error e => replyError req.id e
      | .ok _mthd =>
        let _unmarshalErrNeverChecked := env.unmarshalParamErr
        match env.invokeErr with
        | some e => replyError req.id e
        | none => replyResult req.id env.marshalOut

/-! ### Lock and shared-map event traces (client.go)

Each definition below lists, in program order, the lock operations, the
accesses to the shared `c.calls` map, the channel deliveries and the other
observable effects performed by one client function, branch by branch,
read off the straight-line source. `annotate` then labels every event with
the set of locks held at the moment it happens. -/

/-- The two client mutexes: `c.reqMutex` (send lock) and `c.m` (map lock),
client.go:33-34. -/
inductive LockId
  | reqMutex
  | mapMutex
deriving DecidableEq

/-- Kinds of access to the shared `c.calls` map. -/
inductive MapAccess
  | lookup
  | insert
  | delete
  | iterate
deriving DecidableEq

/-- One observable event of a client function. -/
inductive Ev
  | acq (l : LockId)
  | rel (l : LockId)
  | acc (a : MapAccess)
  | chanSend
  | setShutdown
  | encode
  | connClose
deriving DecidableEq

/-- One successful-decode iteration of `recv` (client.go:55-64): the id
lookup `c.calls[resp.Id]` happens before any lock is taken; only the
`delete` is wrapped in `c.m.Lock()`/`Unlock()`. -/
def recvIterEvents (found : Bool) : List Ev :=
  [.acc .lookup] ++
  (if found then
    [.chanSend, .acq .mapMutex, .acc .delete, .rel .mapMutex]
  else [])

/-- The shutdown fan-out of `recv` (client.go:67-74), for a map holding
`n` calls: `reqMutex.Lock(); m.Lock(); shutdown = true;` then per entry a
map read and a channel delivery; then both unlocks in reverse order. -/
def recvFanoutEvents (n : Nat) : List Ev :=
  [.acq .reqMutex, .acq .mapMutex, .setShutdown] ++
  (List.replicate n [Ev.acc .iterate, Ev.chanSend]).flatten ++
  [.rel .mapMutex, .rel .reqMutex]

/-- `send` (client.go:178-190): the encode runs under the send lock. -/
def sendEvents : List Ev := [.acq .reqMutex, .encode, .rel .reqMutex]

/-- `do` (client.go:154-176): flag check and registration under the map
lock; then `send`; on send failure, deregistration under the map lock and
a channel delivery. -/
def doEvents (closingOrShutdown sendFailed : Bool) : List Ev :=
  [.acq .mapMutex] ++
  (if closingOrShutdown then [.rel .mapMutex, .chanSend]
   else
     [.acc .insert, .rel .mapMutex] ++ sendEvents ++
     (if sendFailed then
       [.acq .mapMutex, .acc .delete, .rel .mapMutex, .chanSend]
     else []))

/-- `Close` (client.go:192-203): the flag check and the `conn.Close()`
both run under the map lock. -/
def closeEvents (shutdownOrClosing : Bool) : List Ev :=
  [.acq .mapMutex] ++
  (if shutdownOrClosing then [.rel .mapMutex] else [.connClose, .rel .mapMutex])

/-- The set of locks held after processing one event. -/
def lockStep (held : List LockId) : Ev → List LockId
  | .acq l => l :: held
  | .rel l => held.erase l
  | _ => held

/-- Label every event of a trace with the locks held when it occurs. -/
def annotate (held : List LockId) : List Ev → List (Ev × List LockId)
  | [] => []
  | e :: es => (e, held) :: annotate (lockStep held e) es

theorem annotate_append (held : List LockId) (l₁ l₂ : List Ev) :
    annotate held (l₁ ++ l₂) =
      annotate held l₁ ++ annotate (l₁.foldl lockStep held) l₂ := by
  induction l₁ generalizing held with
  | nil => rfl
  | cons e es ih => simp [annotate, ih, List.foldl_cons]

theorem annotate_fanout_mid (n : Nat) (held : List LockId) :
    annotate held (List.replicate n [Ev.acc .iterate, Ev.chanSend]).flatten =
      (List.replicate n [(Ev.acc .iterate, held), (Ev.chanSend, held)]).flatten := by
  induction n with
  | zero => rfl
  | succ k ih =>
      simp only [List.replicate_succ, List.flatten_cons]
      rw [annotate_append]
      simp only [List.foldl_cons, List.foldl_nil]
      show _ ++ annotate (lockStep (lockStep held (.acc .iterate)) .chanSend) _ = _
      simp only [lockStep]
      rw [ih]
      rfl

theorem mem_flatten_replicate_pair {α : Type} (n : Nat) (x y p : α)
    (h : p ∈ (List.replicate n [x, y]).flatten) : p = x ∨ p = y := by
  induction n with
  | zero => simp at h
  | succ k ih =>
      simp only [List.replicate_succ, List.flatten_cons, List.mem_append] at h
      rcases h with h | h
      · simp only [List.mem_cons, List.not_mem_nil, or_false] at h
        exact h
      · exact ih h

theorem foldl_lockStep_fanout_mid (n : Nat) (held : List LockId) :
    ((List.replicate n [Ev.acc .iterate, Ev.chanSend]).flatten).foldl lockStep held
      = held := by
  induction n generalizing held with
  | zero => rfl
  | succ k ih =>
      simp only [List.replicate_succ, List.flatten_cons, List.foldl_append]
      exact ih _

/-! ### Small helpers for stating the claims -/

/-- Whether an `Except` value is a success. -/
def exceptOk {ε α : Type} : Except ε α → Bool
  | .ok _ => true
  | .error _ => false

/-- The spec's characterization of a well-formed method name: it splits on
the dot into exactly two non-empty parts. Stated from the spec's words, to
be compared with the source-derived validations. -/
def validTwoPart (s : String) : Prop :=
  match goSplitDot s with
  | [a, b] => a ≠ "" ∧ b ≠ ""
  | _ => False

/-! ### The claims -/

/-- C7: for every method-name string, the client's validation in
`parseCall` and the server's validation in `Request.Regular` make the same
accept/reject decision, and both accept exactly the strings that split on
the dot into exactly two non-empty parts. -/
theorem parseCall_regular_agree (st : ClientState) (method : String)
    (inM : Except String String) (id : Nat) (param : Option String) :
    (exceptOk (parseCall st method inM).2 = true ↔
        (Request.mk id method param).Regular = none) ∧
    ((Request.mk id method param).Regular = none ↔ validTwoPart method) := by
  rcases hs : goSplitDot method with _ | ⟨a, _ | ⟨b, _ | ⟨c, rest⟩⟩⟩
  · simp [parseCall, Request.Regular, validTwoPart, exceptOk, hs]
  · simp [parseCall, Request.Regular, validTwoPart, exceptOk, hs]
  · by_cases ha : a = "" <;> by_cases hb : b = "" <;>
      simp [parseCall, Request.Regular, validTwoPart, exceptOk, hs, ha, hb]
  · simp [parseCall, Request.Regular, validTwoPart, exceptOk, hs]

/-- C10: the client's send path never fails because the input payload
could not be serialized. The error `send` returns is the encoder's error
alone (independent of the marshal outcome), the written `Request` always
carries the call's id and method, and its payload field is nil exactly
when the marshal failed. -/
theorem send_ignores_marshal_error (call : Call) (encErr : Option String)
    (m₁ m₂ : Except String String) (b e : String) :
    (send { call with reqMarshal := m₁ } encErr).2 =
      (send { call with reqMarshal := m₂ } encErr).2 ∧
    (send call encErr).2 = encErr ∧
    (send call encErr).1.id = call.id ∧
    (send call encErr).1.method = call.method ∧
    (send { call with reqMarshal := .error e } encErr).1.param = none ∧
    (send { call with reqMarshal := .ok b } encErr).1.param = some b :=
  ⟨rfl, rfl, rfl, rfl, rfl, rfl⟩

/-- C4: the server-level `getMethod` helper errors exactly when the named
method IS present in the resolved service's method map and returns with no
error and a nil `serviceMethod` when it is absent — inverted relative to
the service-level `getMethod` used by dispatch, which errors exactly when
the name is absent. -/
theorem server_getMethod_inverted (s : ServerState) (method svcName mName : String)
    (svc : service)
    (hsplit : goSplitDot method = [svcName, mName])
    (hsvc : mlookup svcName s.serviceMap = some svc) :
    ((ServerGetMethod s method).2.2.isSome ↔ (mlookup mName svc.methodMap).isSome) ∧
    (mlookup mName svc.methodMap = none →
        ServerGetMethod s method = (some svc, none, none)) ∧
    (exceptOk (svc.getMethod mName) = false ↔ mlookup mName svc.methodMap = none) := by
  rcases hm : mlookup mName svc.methodMap with _ | m <;>
    simp [ServerGetMethod, service.getMethod, exceptOk, hsplit, hsvc, hm]

/-- The registration state used to exercise `server_getMethod_inverted`:
one service "S" holding one method "M". -/
def c4Method : serviceMethod :=
  { methodName := "M", inType := .base "Args" "main",
    outType := .ptr (.base "Reply" "main") }

/-- See `c4Method`. -/
def c4Service : service :=
  { receiverTypeName := "S", methodMap := [("M", c4Method)] }

/-- See `c4Method`. -/
def c4Server : ServerState := { serviceMap := [("S", c4Service)] }

/-- Witness for C4 at the concrete server `c4Server` and name "S.M". -/
theorem server_getMethod_inverted_witness :
    ((ServerGetMethod c4Server "S.M").2.2.isSome ↔
        (mlookup "M" c4Service.methodMap).isSome) ∧
    (mlookup "M" c4Service.methodMap = none →
        ServerGetMethod c4Server "S.M" = (some c4Service, none, none)) ∧
    (exceptOk (c4Service.getMethod "M") = false ↔
        mlookup "M" c4Service.methodMap = none) :=
  server_getMethod_inverted c4Server "S.M" "S" "M" c4Service (by decide) (by decide)

theorem registerFold_id (methods : List Method)
    (acc : List (String × serviceMethod))
    (h : ∀ m ∈ methods, methodQualifies m = false) :
    methods.foldl
      (fun mp m =>
        if methodQualifies m then
          minsert m.name
            { methodName := m.name,
              inType := m.inTypes.getD 1 (.base "" ""),
              outType := m.inTypes.getD 2 (.base "" "") } mp
        else mp)
      acc = acc := by
  induction methods generalizing acc with
  | nil => rfl
  | cons m ms ih =>
      have hm : methodQualifies m = false := h m (List.mem_cons_self m ms)
      simp only [List.foldl_cons, hm, if_false]
      exact ih acc (fun m' hm' => h m' (List.mem_cons_of_mem m hm'))

/-- C8: registering a candidate with a non-empty type name but zero
methods matching the calling convention fails with the distinguished
`NoExportedMethod` error, leaves the registry unchanged, and a subsequent
`getService` for that name still fails. -/
theorem register_no_exported_method (s : ServerState) (cand : Candidate)
    (hname : cand.typeName ≠ "")
    (hzero : ∀ m ∈ cand.methods, methodQualifies m = false)
    (hfresh : mlookup cand.typeName s.serviceMap = none) :
    (Register s cand).2 = some NoExportedMethod ∧
    (Register s cand).1 = s ∧
    exceptOk (getService (Register s cand).1 cand.typeName) = false := by
  have hmm : buildMethodMap cand.methods = [] :=
    registerFold_id cand.methods [] hzero
  unfold Register
  simp [hname, hmm, getService, hfresh, exceptOk]

/-- A candidate type with one unexported (lower-case, non-empty `PkgPath`)
method, so that nothing qualifies. -/
def c8Candidate : Candidate :=
  { typeName := "T",
    methods := [{ name := "hidden", pkgPath := "example/internal",
                  inTypes := [.base "T" "example", .base "Args" "example",
                              .ptr (.base "Reply" "example")],
                  outTypes := [typeOfError] }] }

/-- Witness for C8 at the empty registry and the candidate `c8Candidate`. -/
theorem register_no_exported_method_witness :
    (Register { serviceMap := [] } c8Candidate).2 = some NoExportedMethod ∧
    (Register { serviceMap := [] } c8Candidate).1 = { serviceMap := [] } ∧
    exceptOk (getService (Register { serviceMap := [] } c8Candidate).1
      c8Candidate.typeName) = false :=
  register_no_exported_method { serviceMap := [] } c8Candidate (by decide)
    (by decide) (by decide)

/-- C6: when an invoked method returns a non-nil error outcome, the
session replies with a `Response` whose error field is that error's text
and whose result field is nil; a client call completed with that
`Response` surfaces exactly that text and never runs the unmarshal into
the caller-supplied output destination. -/
theorem error_response_roundtrip (s : ServerState) (env : DoEnv) (req : Request)
    (svc : service) (m : serviceMethod) (e : String)
    (hasOut : Bool) (u : Option String)
    (hreg : req.Regular = none)
    (hsvc : getService s ((goSplitDot req.method).getD 0 "") = .ok svc)
    (hm : svc.getMethod ((goSplitDot req.method).getD 1 "") = .ok m)
    (hinv : env.invokeErr = some e)
    (hne : e ≠ "") :
    connDo s env req = { id := req.id, result := none, error := e } ∧
    (callFinish (connDo s env req) hasOut u).err = some e ∧
    (callFinish (connDo s env req) hasOut u).unmarshalAttempted = false := by
  have h1 : connDo s env req = { id := req.id, result := none, error := e } := by
    simp only [connDo, hreg, hsvc, hm, hinv, replyError]
  refine ⟨h1, ?_, ?_⟩ <;> rw [h1] <;> simp [callFinish, hne]

/-- The registration state used to exercise `error_response_roundtrip`. -/
def c6Method : serviceMethod :=
  { methodName := "M", inType := .base "Args" "main",
    outType := .ptr (.base "Reply" "main") }

/-- See `c6Method`. -/
def c6Service : service :=
  { receiverTypeName := "S", methodMap := [("M", c6Method)] }

/-- See `c6Method`. -/
def c6Server : ServerState := { serviceMap := [("S", c6Service)] }

/-- See `c6Method`. -/
def c6Env : DoEnv :=
  { unmarshalParamErr := none, invokeErr := some "boom", marshalOut := none }

/-- See `c6Method`. -/
def c6Req : Request := { id := 9, method := "S.M", param := some "p" }

/-- Witness for C6 at the concrete session state `c6Server`/`c6Env` and
request `c6Req`, whose invocation fails with "boom". -/
theorem error_response_roundtrip_witness :
    connDo c6Server c6Env c6Req = { id := c6Req.id, result := none, error := "boom" } ∧
    (callFinish (connDo c6Server c6Env c6Req) true none).err = some "boom" ∧
    (callFinish (connDo c6Server c6Env c6Req) true none).unmarshalAttempted = false :=
  error_response_roundtrip c6Server c6Env c6Req c6Service c6Method "boom" true none
    (by decide) (by decide) (by decide) (by decide) (by decide)

/-- C5: when `CallWithTimeout`'s timer fires before a `Response` is
delivered, the result is the timeout error and the call is still
registered in the outstanding-calls map (the timeout branch touches
nothing); the completion channel was made with buffer capacity exactly
one and is still empty, so the late `Response` is delivered to it without
blocking, after which the receive loop removes the call — the delivered
value sits in a channel nobody reads any more. -/
theorem callWithTimeout_timeout_leaves_registered
    (st st1 : ClientState) (method : String) (inM : Except String String)
    (call : Call) (resp : Response) (hasOut : Bool) (u : Option String)
    (h : parseCall st method inM = (st1, .ok call))
    (hclos : st1.closing = false) (hshut : st1.shutdown = false)
    (hid : resp.id = call.id) :
    mlookup call.id (clientDo st1 call none).1.calls = some call ∧
    (clientDo st1 call none).2 = call ∧
    call.done.cap = 1 ∧
    call.done.buf = [] ∧
    callWithTimeoutFinish .timedOut hasOut u = some ErrTimeout ∧
    call.done.sendWouldBlock = false ∧
    (recvStep (clientDo st1 call none).1 resp).1.calls =
      merase call.id (clientDo st1 call none).1.calls ∧
    mlookup call.id (recvStep (clientDo st1 call none).1 resp).1.calls = none ∧
    (recvStep (clientDo st1 call none).1 resp).2 = some (call.done.send resp) := by
  have hdone : call.done = { cap := 1, buf := [] } := by
    simp only [parseCall] at h
    split at h
    · simp at h
    · rw [Prod.mk.injEq] at h
      obtain ⟨-, h2⟩ := h
      injection h2 with h2
      rw [← h2]
  have hdo : clientDo st1 call none =
      ({ st1 with calls := minsert call.id call st1.calls }, call) := by
    unfold clientDo
    rw [hclos, hshut]
    rfl
  have hlook : mlookup call.id (clientDo st1 call none).1.calls = some call := by
    rw [hdo]
    exact mlookup_minsert_self call.id call st1.calls
  have hrecv : recvStep (clientDo st1 call none).1 resp =
      ({ (clientDo st1 call none).1 with
          calls := merase call.id (clientDo st1 call none).1.calls },
       some (call.done.send resp)) := by
    unfold recvStep
    rw [hid, hlook]
  refine ⟨hlook, by rw [hdo], by rw [hdone], by rw [hdone], rfl, ?_, ?_, ?_, ?_⟩
  · rw [hdone]; rfl
  · rw [hrecv]
  · rw [hrecv]
    exact mlookup_merase_self call.id _
  · rw [hrecv]

/-- The concrete run used to witness C5: a fresh client, method "A.B". -/
def c5Start : ClientState :=
  { calls := [], closing := false, shutdown := false, seqId := 0 }

/-- The state `parseCall` leaves behind in the witness run of C5. -/
def c5St1 : ClientState :=
  { calls := [], closing := false, shutdown := false, seqId := 1 }

/-- The call `parseCall` builds in the witness run of C5. -/
def c5Call : Call :=
  { id := 1, method := "A.B", reqMarshal := .ok "1",
    done := { cap := 1, buf := [] } }

/-- The late response of the witness run of C5. -/
def c5Resp : Response := { id := 1, result := some "res", error := "" }

/-- Witness for C5 at the concrete run `c5Start` → `c5St1`/`c5Call`. -/
theorem callWithTimeout_timeout_leaves_registered_witness :
    mlookup c5Call.id (clientDo c5St1 c5Call none).1.calls = some c5Call ∧
    (clientDo c5St1 c5Call none).2 = c5Call ∧
    c5Call.done.cap = 1 ∧
    c5Call.done.buf = [] ∧
    callWithTimeoutFinish .timedOut true none = some ErrTimeout ∧
    c5Call.done.sendWouldBlock = false ∧
    (recvStep (clientDo c5St1 c5Call none).1 c5Resp).1.calls =
      merase c5Call.id (clientDo c5St1 c5Call none).1.calls ∧
    mlookup c5Call.id (recvStep (clientDo c5St1 c5Call none).1 c5Resp).1.calls = none ∧
    (recvStep (clientDo c5St1 c5Call none).1 c5Resp).2 =
      some (c5Call.done.send c5Resp) :=
  callWithTimeout_timeout_leaves_registered c5Start c5St1 "A.B" (.ok "1")
    c5Call c5Resp true none (by decide) (by decide) (by decide) (by decide)

theorem mlookup_fanoutList (e : String) (id : Nat) (l : List (Nat × Call)) :
    mlookup id
      (l.map (fun p => (p.1, { p.2 with done := p.2.done.send (syntheticResp e) })))
      = (mlookup id l).map
          (fun c => { c with done := c.done.send (syntheticResp e) }) := by
  induction l with
  | nil => rfl
  | cons p rest ih =>
      obtain ⟨k, v⟩ := p
      by_cases h : k = id <;> simp [mlookup, h, ih]

/-- C1 (amended): on decode failure the fan-out sets `shutdown` and,
holding the send lock and then the map lock throughout, delivers the
synthetic error `Response` carrying the decode error's text to every call
still in the outstanding-calls map — but it leaves the map's entries in
place (the map is NOT emptied: the entries keep their keys, each call now
carrying the delivered response on its channel). -/
theorem recvFanout_delivers_all_map_unchanged (st : ClientState) (e : String)
    (n : Nat) :
    (recvFanout st e).shutdown = true ∧
    (recvFanout st e).closing = st.closing ∧
    (recvFanout st e).seqId = st.seqId ∧
    (∀ id call, mlookup id st.calls = some call →
        mlookup id (recvFanout st e).calls =
          some { call with done := call.done.send (syntheticResp e) }) ∧
    ((recvFanout st e).calls = [] ↔ st.calls = []) ∧
    (∀ p ∈ annotate [] (recvFanoutEvents n),
        p.1 = Ev.chanSend ∨ p.1 = Ev.setShutdown →
          LockId.reqMutex ∈ p.2 ∧ LockId.mapMutex ∈ p.2) := by
  refine ⟨rfl, rfl, rfl, ?_, ?_, ?_⟩
  · intro id call hc
    have h2 := mlookup_fanoutList e id st.calls
    rw [hc] at h2
    exact h2
  · show st.calls.map _ = [] ↔ st.calls = []
    cases st.calls <;> simp
  · intro p hp hkind
    have hA : annotate [] (recvFanoutEvents n) =
        (Ev.acq .reqMutex, ([] : List LockId)) ::
        (Ev.acq .mapMutex, [LockId.reqMutex]) ::
        (Ev.setShutdown, [LockId.mapMutex, LockId.reqMutex]) ::
        annotate [LockId.mapMutex, LockId.reqMutex]
          ((List.replicate n [Ev.acc .iterate, Ev.chanSend]).flatten ++
            [Ev.rel .mapMutex, Ev.rel .reqMutex]) := rfl
    rw [hA, annotate_append, annotate_fanout_mid, foldl_lockStep_fanout_mid] at hp
    simp only [List.mem_cons, List.mem_append] at hp
    rcases hp with rfl | rfl | rfl | hp | hp
    · rcases hkind with h | h <;> simp at h
    · rcases hkind with h | h <;> simp at h
    · exact ⟨by simp, by simp⟩
    · rcases mem_flatten_replicate_pair n _ _ p hp with rfl | rfl
      · rcases hkind with h | h <;> simp at h
      · exact ⟨by simp, by simp⟩
    · simp only [annotate, lockStep, List.mem_cons, List.not_mem_nil, or_false] at hp
      rcases hp with rfl | rfl <;> (rcases hkind with h | h <;> simp at h)

/-- The outstanding call of the C1 run. -/
def c1Call : Call :=
  { id := 5, method := "A.B", reqMarshal := .ok "x",
    done := { cap := 1, buf := [] } }

/-- A tracker with one outstanding call, about to suffer a decode
failure. -/
def c1State : ClientState :=
  { calls := [(5, c1Call)], closing := false, shutdown := false, seqId := 5 }

/-- Counterexample to C1 as stated: after the shutdown fan-out on the
tracker `c1State` (one outstanding call), `shutdown` is set and the
synthetic response was delivered, but the outstanding-calls map is NOT
empty — the entry for id 5 is still there, so the "leaves the
outstanding-calls mapping emptied" part of the claim is false. -/
theorem fanout_leaves_map_nonempty :
    (recvFanout c1State "EOF").shutdown = true ∧
    (recvFanout c1State "EOF").calls ≠ [] ∧
    mlookup 5 (recvFanout c1State "EOF").calls =
      some { c1Call with done := c1Call.done.send (syntheticResp "EOF") } := by
  decide

/-- Witness for C1's amended theorem at the tracker `c1State`. -/
theorem recvFanout_delivers_all_map_unchanged_witness :
    mlookup 5 c1State.calls = some c1Call ∧
    mlookup 5 (recvFanout c1State "eof text").calls =
      some { c1Call with done := c1Call.done.send (syntheticResp "eof text") } :=
  ⟨by decide,
   (recvFanout_delivers_all_map_unchanged c1State "eof text" 1).2.2.2.1 5 c1Call
     (by decide)⟩

/-- An open client: both flags clear, nothing outstanding. -/
def c2State : ClientState :=
  { calls := [], closing := false, shutdown := false, seqId := 0 }

/-- C2: `Close` is NOT idempotent. The source's `Close` never assigns
`c.closing` (the flag is declared and checked but never set anywhere in
the repository), so on a client with both flags clear the first `Close`
closes the socket yet leaves the state — including `closing` — unchanged,
and a second `Close` passes the guard and closes the socket again. -/
theorem close_second_call_closes_again :
    (Close c2State).2 = true ∧
    (Close c2State).1.closing = false ∧
    (Close c2State).1 = c2State ∧
    (Close (Close c2State).1).2 = true := by
  decide

/-- The registration state used to evaluate C3's failing input: service
"S" with method "M" is registered and the request passes validation and
both lookups. -/
def c3Method : serviceMethod :=
  { methodName := "M", inType := .base "Args" "main",
    outType := .ptr (.base "Reply" "main") }

/-- See `c3Method`. -/
def c3Service : service :=
  { receiverTypeName := "S", methodMap := [("M", c3Method)] }

/-- See `c3Method`. -/
def c3Server : ServerState := { serviceMap := [("S", c3Service)] }

/-- The session environment of C3's failing input: deserializing the
payload fails, the invocation itself reports no error. -/
def c3Env : DoEnv :=
  { unmarshalParamErr := some "unexpected end of JSON input",
    invokeErr := none, marshalOut := some "outbytes" }

/-- See `c3Env`. -/
def c3Req : Request := { id := 7, method := "S.M", param := some "bad payload" }

/-- C3 evaluated at the failing input: although deserializing the payload
fails (`c3Env.unmarshalParamErr` is set), the session does NOT write back
an error `Response` carrying that error — `do` drops the unmarshal error,
invokes the method anyway and writes a success `Response`; the written
response is the same whatever the unmarshal outcome was. -/
theorem do_ignores_unmarshal_error :
    connDo c3Server c3Env c3Req =
      { id := 7, result := some "outbytes", error := "" } ∧
    (∀ e : String,
      connDo c3Server { c3Env with unmarshalParamErr := some e } c3Req =
        connDo c3Server { c3Env with unmarshalParamErr := none } c3Req) :=
  ⟨by decide, fun _ => rfl⟩

/-- C9 evaluated at the failing point: in a successful-decode iteration of
the receive loop, the very first event is the id lookup in the
outstanding-calls map, performed with NO locks held (in particular without
the map lock) — both when the id is found and when it is not. The lock
order in the fan-out (send lock before map lock) does hold, but the claim
that every lookup is performed under the map lock is false here. -/
theorem recv_lookup_without_map_lock :
    (annotate [] (recvIterEvents true)).head? = some (Ev.acc .lookup, []) ∧
    (annotate [] (recvIterEvents false)).head? = some (Ev.acc .lookup, []) ∧
    (Ev.acc .lookup, ([] : List LockId)) ∈ annotate [] (recvIterEvents true) := by
  decide

end JsonRpc
